import Mathlib

/-!
Formal model of the core pipeline of `video_to_pdf_render/app.py`:
the frame sampler/deduplicator `extract_unique_frames` (lines 89-129) and the
document assembler `convert_frames_to_pdf` (lines 131-154).

External collaborators (OpenCV decoding, skimage SSIM, cv2.imwrite, PIL corner
sampling) are modelled as explicit function parameters, since their code is not
part of this repository; everything the repository's own code does (candidate
selection, thresholding, budget stop, file naming, timestamp parsing and
formatting, text-color selection, error raising) is translated directly.

Floats are modelled as rationals: fps values, SSIM scores and thresholds are
exact data threaded through comparisons, which is faithful for the finite
values compared here.
-/

namespace VideoToPdf

/-- Exact rational division, modelling Python's `/` on the (nonzero-divisor)
operands reachable in the sampler.  Written via `Rat.divInt` so that it
evaluates by kernel reduction. -/
def ratDiv (a b : ℚ) : ℚ := Rat.divInt (a.num * b.den) (a.den * b.num)

/-- Python `int(x)` applied to a real number: truncation toward zero. -/
def pyInt (q : ℚ) : Int := q.num.tdiv q.den

/-- Zero padding to a given width, modelling `f"{n:06d}"` and `f"{n:02d}"` for
the nonnegative values rendered by the program. -/
def padZeros (width : Nat) (s : String) : String :=
  String.mk (List.replicate (width - s.length) '0') ++ s

/-- `out_name = f"frame_{frame_idx:06d}_{timestamp}s.png"` (app.py line 120). -/
def frameFileName (frame_idx : Nat) (timestamp : Int) : String :=
  "frame_" ++ padZeros 6 (toString frame_idx) ++ "_" ++ toString timestamp ++ "s.png"

/-- `fps = cap.get(cv2.CAP_PROP_FPS) or 25.0` (app.py line 94).  OpenCV reports
`0.0` when the frame rate is unavailable, and Python's `or` replaces exactly
the falsy value `0.0` by `25.0`; any other reported value is kept as is. -/
def effectiveFps (reportedFps : ℚ) : ℚ := if reportedFps = 0 then 25 else reportedFps

/-- One entry of the sampler's `saved` list (app.py line 123).  The Python code
appends the pair `(out_name, timestamp)`; the originating frame index is kept
alongside (it is the value embedded zero-padded in `out_name`). -/
structure Saved where
  frame_idx : Nat
  out_name : String
  timestamp : Int

/-- Outcome of a sampler run: the returned `saved` list or the propagated
exception message, together with whether `cap.release()` ran before the
function finished. -/
structure SamplerResult where
  result : Except String (List Saved)
  released : Bool

/-- The retention test of the sampler loop (app.py lines 108-117): retain when
no frame has been retained yet (`last_small is None`), or when the similarity
score is below the threshold.  `ssimF small last = none` models the ssim call
raising, which the code catches and treats as score `0.0`. -/
def shouldSave {Sig : Type} (ssimF : Sig → Sig → Option ℚ) (ssim_threshold : ℚ)
    (small : Sig) (last_small : Option Sig) : Bool :=
  match last_small with
  | none => true
  | some last => decide ((ssimF small last).getD 0 < ssim_threshold)

/-- The `while True` frame loop of `extract_unique_frames` (app.py lines
99-129), one constructor case per `cap.read()` outcome.  `toSmall` is the
external `cvtColor` + `resize` signature computation, `ssimF` the external
similarity score, and `imwrite` the external `cv2.imwrite`, whose failure
propagates out of the loop (there is no `try/finally` around the loop, so a
propagating error skips `cap.release()`). -/
def extractLoop {Frame Sig : Type} (toSmall : Frame → Sig) (ssimF : Sig → Sig → Option ℚ)
    (imwrite : String → Frame → Except String Unit) (fps : ℚ)
    (sample_rate : Nat) (ssim_threshold : ℚ) (max_frames : Nat) :
    List Frame → Nat → List Saved → Option Sig → SamplerResult
  | [], _, saved, _ => ⟨Except.ok saved, true⟩
  | frame :: rest, frame_idx, saved, last_small =>
    if frame_idx % sample_rate ≠ 0 then
      extractLoop toSmall ssimF imwrite fps sample_rate ssim_threshold max_frames
        rest (frame_idx + 1) saved last_small
    else
      let small := toSmall frame
      if shouldSave ssimF ssim_threshold small last_small then
        let timestamp := pyInt (ratDiv (frame_idx : ℚ) fps)
        let out_name := frameFileName frame_idx timestamp
        match imwrite out_name frame with
        | Except.error e => ⟨Except.error e, false⟩
        | Except.ok _ =>
          let saved' := saved ++ [⟨frame_idx, out_name, timestamp⟩]
          if max_frames ≤ saved'.length then ⟨Except.ok saved', true⟩
          else
            extractLoop toSmall ssimF imwrite fps sample_rate ssim_threshold max_frames
              rest (frame_idx + 1) saved' (some small)
      else
        extractLoop toSmall ssimF imwrite fps sample_rate ssim_threshold max_frames
          rest (frame_idx + 1) saved last_small

/-- `extract_unique_frames` (app.py lines 89-129).  `isOpened` is the result of
the external `cap.isOpened()`; `reportedFps` the value of
`cap.get(cv2.CAP_PROP_FPS)`; `frames` the decoded frame sequence of the
stream.  On an unopened stream the function raises before the loop (and before
any release). -/
def extract_unique_frames {Frame Sig : Type} (toSmall : Frame → Sig)
    (ssimF : Sig → Sig → Option ℚ) (imwrite : String → Frame → Except String Unit)
    (isOpened : Bool) (reportedFps : ℚ) (frames : List Frame)
    (sample_rate : Nat) (ssim_threshold : ℚ) (max_frames : Nat) : SamplerResult :=
  if isOpened then
    extractLoop toSmall ssimF imwrite (effectiveFps reportedFps)
      sample_rate ssim_threshold max_frames frames 0 [] none
  else ⟨Except.error "Cannot open video file.", false⟩

/-- The number of retained frames of a sampler run (`len(saved)`), 0 when the
run raised. -/
def savedCount (r : SamplerResult) : Nat :=
  match r.result with
  | Except.ok l => l.length
  | Except.error _ => 0

/-- ASCII lowercasing of one character, the effect of Python `str.lower` on the
file names handled here. -/
def lowerChar (c : Char) : Char :=
  if 'A' ≤ c ∧ c ≤ 'Z' then Char.ofNat (c.toNat + 32) else c

/-- Python `f.lower()` (ASCII). -/
def lowerStr (s : String) : String := String.mk (s.data.map lowerChar)

/-- Python `str.endswith` on code-point lists. -/
def charListEndsWith (s suffixChars : List Char) : Bool :=
  decide (s.drop (s.length - suffixChars.length) = suffixChars)

/-- The listing filter `f.lower().endswith((".png", ".jpg", ".jpeg"))`
(app.py line 132). -/
def isFrameImageName (f : String) : Bool :=
  charListEndsWith (lowerStr f).data ".png".data ||
  charListEndsWith (lowerStr f).data ".jpg".data ||
  charListEndsWith (lowerStr f).data ".jpeg".data

/-- Code-point lexicographic strict order on strings, Python's `<` used by
`sorted`. -/
def charListLt : List Char → List Char → Bool
  | _, [] => false
  | [], _ :: _ => true
  | a :: as, b :: bs => if a < b then true else if b < a then false else charListLt as bs

/-- Insertion into an ascending list under `charListLt`. -/
def insertStr (x : String) : List String → List String
  | [] => [x]
  | y :: ys => if charListLt x.data y.data then x :: y :: ys else y :: insertStr x ys

/-- Ascending sort of strings by code points, Python's `sorted`. -/
def sortStrings : List String → List String
  | [] => []
  | x :: xs => insertStr x (sortStrings xs)

/-- `files = sorted([f for f in os.listdir(frames_dir) if f.lower().endswith(
(".png", ".jpg", ".jpeg"))])` (app.py line 132), applied to the directory
listing. -/
def sortedFrameFiles (listing : List String) : List String :=
  sortStrings (listing.filter isFrameImageName)

/-- One anchored attempt of the regex of app.py line 142.  The pattern literal
is the RAW string `r"_(\\d+)s"`, so the regex source is `_(\\d+)s`: an
underscore, then group 1 = an escaped backslash (matching one literal
backslash) followed by `d+` (one or more literal letters `d`), then `s`.  It
does NOT match decimal digits. -/
def tsMatchAt (cs : List Char) : Option String :=
  match cs with
  | '_' :: '\\' :: rest =>
    let ds := rest.takeWhile (fun c => c = 'd')
    if ds.isEmpty then none
    else
      match rest.drop ds.length with
      | 's' :: _ => some (String.mk ('\\' :: ds))
      | _ => none
  | _ => none

/-- `re.search(r"_(\\d+)s", fname)` (app.py line 142): leftmost match,
returning the text of capture group 1. -/
def tsSearch : List Char → Option String
  | [] => none
  | c :: cs =>
    match tsMatchAt (c :: cs) with
    | some g => some g
    | none => tsSearch cs

/-- Decimal digit test. -/
def isAsciiDigit (c : Char) : Bool := decide ('0' ≤ c) && decide (c ≤ '9')

/-- Value of a digit string. -/
def digitsToNat (ds : List Char) : Nat :=
  ds.foldl (fun acc c => 10 * acc + (c.toNat - 48)) 0

/-- Python `int(s)` restricted to the string shapes reachable here: an optional
minus sign followed by decimal digits parses; anything else (in particular the
backslash-led capture groups of `tsSearch`) raises `ValueError` (`none`). -/
def pyParseInt (s : String) : Option Int :=
  match s.data with
  | [] => none
  | '-' :: rest =>
    if rest ≠ [] ∧ rest.all isAsciiDigit then some (-(digitsToNat rest : Int)) else none
  | ds =>
    if ds.all isAsciiDigit then some ((digitsToNat ds : Int)) else none

/-- `ts = f"{seconds//3600:02d}:{(seconds%3600)//60:02d}:{seconds%60:02d}"`
(app.py line 144); Python `//` and `%` are floor division and modulus, which
for the positive divisors used here are `Int.ediv` and `Int.emod`. -/
def formatHMS (seconds : Int) : String :=
  padZeros 2 (toString (Int.ediv seconds 3600)) ++ ":" ++
  padZeros 2 (toString (Int.ediv (Int.emod seconds 3600) 60)) ++ ":" ++
  padZeros 2 (toString (Int.emod seconds 60))

/-- One page of the produced document: the drawn image, the timestamp label,
and the `(r, g, b)` text color passed to `pdf.set_text_color`. -/
structure Page where
  image : String
  label : String
  textColor : Nat × Nat × Nat

/-- `seconds = int(m.group(1)) if m else 0` (app.py lines 142-143), including
the `ValueError` that `int` would raise on a non-numeric group. -/
def pageSeconds (fname : String) : Except String Int :=
  match tsSearch fname.data with
  | some g =>
    match pyParseInt g with
    | some n => Except.ok n
    | none => Except.error "ValueError: invalid literal for int()"
  | none => Except.ok 0

/-- One iteration of the page loop (app.py lines 137-152) for file `fname`.
`meanOf` is the external corner-mean computation (PIL: convert to `L`, crop
`(5,5,65,20)`, resize to 1x1, `getpixel`), a luminance in `0..255`.  The text
color is `set_text_color(255,255,255 if mean<64 else 0)` verbatim: the
conditional expression is the third (blue) argument only. -/
def makePage (meanOf : String → Nat) (fname : String) : Except String Page :=
  match pageSeconds fname with
  | Except.error e => Except.error e
  | Except.ok seconds =>
    Except.ok { image := fname, label := formatHMS seconds,
                textColor := (255, 255, if meanOf fname < 64 then 255 else 0) }

/-- The `for fname in files` page loop, building pages in order and propagating
the first raised error. -/
def buildPages (meanOf : String → Nat) : List String → Except String (List Page)
  | [] => Except.ok []
  | f :: fs =>
    match makePage meanOf f with
    | Except.error e => Except.error e
    | Except.ok p =>
      match buildPages meanOf fs with
      | Except.error e => Except.error e
      | Except.ok ps => Except.ok (p :: ps)

/-- `convert_frames_to_pdf` (app.py lines 131-154): list the frame images in
lexical order, raise `"No frames found."` on an empty set, otherwise emit one
page per file in order.  An `Except.error` result models the raise: no output
document artifact is produced (`pdf.output` is only reached afterwards). -/
def convert_frames_to_pdf (meanOf : String → Nat) (listing : List String) :
    Except String (List Page) :=
  let files := sortedFrameFiles listing
  if files.isEmpty then Except.error "No frames found."
  else buildPages meanOf files

/-- A concrete similarity oracle (on signatures `0..4`, queried as
`cexSsim candidate lastRetained`) whose values are plausible SSIM scores; used
to compare sampler runs at two different thresholds. -/
def cexSsim (a b : Nat) : Option ℚ :=
  if a = 1 ∧ b = 0 then some (mkRat 1 2)
  else if a = 2 ∧ b = 1 then some (mkRat 9 10)
  else if a = 3 ∧ b = 2 then some (mkRat 24 25)
  else if a = 3 ∧ b = 1 then some (mkRat 3 10)
  else if a = 4 ∧ b = 2 then some (mkRat 24 25)
  else if a = 4 ∧ b = 3 then some (mkRat 3 10)
  else some 0

theorem pyInt_nonneg (q : ℚ) (hq : 0 ≤ q) : 0 ≤ pyInt q := by
  obtain ⟨m, hm⟩ := Int.eq_ofNat_of_zero_le (Rat.num_nonneg.mpr hq)
  show 0 ≤ q.num.tdiv q.den
  rw [hm]
  show 0 ≤ Int.ofNat (m / q.den)
  exact Int.natCast_nonneg _

theorem ratDiv_nonneg (a b : ℚ) (ha : 0 ≤ a) (hb : 0 < b) : 0 ≤ ratDiv a b :=
  Rat.divInt_nonneg
    (mul_nonneg (Rat.num_nonneg.mpr ha) (Int.natCast_nonneg b.den))
    (mul_nonneg (Int.natCast_nonneg a.den) (Rat.num_nonneg.mpr hb.le))

theorem extractLoop_length_le {Frame Sig : Type} (toSmall : Frame → Sig)
    (ssimF : Sig → Sig → Option ℚ) (imwrite : String → Frame → Except String Unit)
    (fps : ℚ) (sample_rate : Nat) (ssim_threshold : ℚ) (max_frames : Nat)
    (frames : List Frame) :
    ∀ (frame_idx : Nat) (saved : List Saved) (last_small : Option Sig) (l : List Saved),
      (extractLoop toSmall ssimF imwrite fps sample_rate ssim_threshold max_frames
        frames frame_idx saved last_small).result = Except.ok l →
      saved.length ≤ l.length := by
  induction frames with
  | nil =>
    intro frame_idx saved last_small l h
    simp only [extractLoop] at h
    injection h with h
    subst h
    exact Nat.le_refl _
  | cons frame rest ih =>
    intro frame_idx saved last_small l h
    simp only [extractLoop] at h
    by_cases hmod : frame_idx % sample_rate ≠ 0
    · rw [if_pos hmod] at h
      exact ih _ _ _ _ h
    · rw [if_neg hmod] at h
      by_cases hss : shouldSave ssimF ssim_threshold (toSmall frame) last_small = true
      · rw [if_pos hss] at h
        cases himw : imwrite (frameFileName frame_idx (pyInt (ratDiv (frame_idx : ℚ) fps))) frame with
        | error e =>
          simp only [himw] at h
          exact Except.noConfusion h
        | ok u =>
          simp only [himw] at h
          by_cases hbreak : max_frames ≤
              (saved ++ [(⟨frame_idx, frameFileName frame_idx (pyInt (ratDiv (frame_idx : ℚ) fps)),
                pyInt (ratDiv (frame_idx : ℚ) fps)⟩ : Saved)]).length
          · rw [if_pos hbreak] at h
            injection h with h
            subst h
            simp
          · rw [if_neg hbreak] at h
            have h2 := ih _ _ _ _ h
            simp only [List.length_append, List.length_singleton] at h2
            omega
      · rw [if_neg hss] at h
        exact ih _ _ _ _ h

theorem extractLoop_length_le_max {Frame Sig : Type} (toSmall : Frame → Sig)
    (ssimF : Sig → Sig → Option ℚ) (imwrite : String → Frame → Except String Unit)
    (fps : ℚ) (sample_rate : Nat) (ssim_threshold : ℚ) (max_frames : Nat)
    (frames : List Frame) :
    ∀ (frame_idx : Nat) (saved : List Saved) (last_small : Option Sig) (l : List Saved),
      saved.length < max_frames →
      (extractLoop toSmall ssimF imwrite fps sample_rate ssim_threshold max_frames
        frames frame_idx saved last_small).result = Except.ok l →
      l.length ≤ max_frames := by
  induction frames with
  | nil =>
    intro frame_idx saved last_small l hlt h
    simp only [extractLoop] at h
    injection h with h
    subst h
    exact Nat.le_of_lt hlt
  | cons frame rest ih =>
    intro frame_idx saved last_small l hlt h
    simp only [extractLoop] at h
    by_cases hmod : frame_idx % sample_rate ≠ 0
    · rw [if_pos hmod] at h
      exact ih _ _ _ _ hlt h
    · rw [if_neg hmod] at h
      by_cases hss : shouldSave ssimF ssim_threshold (toSmall frame) last_small = true
      · rw [if_pos hss] at h
        cases himw : imwrite (frameFileName frame_idx (pyInt (ratDiv (frame_idx : ℚ) fps))) frame with
        | error e =>
          simp only [himw] at h
          exact Except.noConfusion h
        | ok u =>
          simp only [himw] at h
          by_cases hbreak : max_frames ≤
              (saved ++ [(⟨frame_idx, frameFileName frame_idx (pyInt (ratDiv (frame_idx : ℚ) fps)),
                pyInt (ratDiv (frame_idx : ℚ) fps)⟩ : Saved)]).length
          · rw [if_pos hbreak] at h
            injection h with h
            subst h
            simp only [List.length_append, List.length_singleton]
            omega
          · rw [if_neg hbreak] at h
            refine ih _ _ _ _ ?_ h
            simp only [List.length_append, List.length_singleton] at hbreak ⊢
            omega
      · rw [if_neg hss] at h
        exact ih _ _ _ _ hlt h

theorem extractLoop_released_iff {Frame Sig : Type} (toSmall : Frame → Sig)
    (ssimF : Sig → Sig → Option ℚ) (imwrite : String → Frame → Except String Unit)
    (fps : ℚ) (sample_rate : Nat) (ssim_threshold : ℚ) (max_frames : Nat)
    (frames : List Frame) :
    ∀ (frame_idx : Nat) (saved : List Saved) (last_small : Option Sig),
      ((extractLoop toSmall ssimF imwrite fps sample_rate ssim_threshold max_frames
        frames frame_idx saved last_small).released = true ↔
      ∃ l, (extractLoop toSmall ssimF imwrite fps sample_rate ssim_threshold max_frames
        frames frame_idx saved last_small).result = Except.ok l) := by
  induction frames with
  | nil =>
    intro frame_idx saved last_small
    simp [extractLoop]
  | cons frame rest ih =>
    intro frame_idx saved last_small
    simp only [extractLoop]
    by_cases hmod : frame_idx % sample_rate ≠ 0
    · rw [if_pos hmod]
      exact ih _ _ _
    · rw [if_neg hmod]
      by_cases hss : shouldSave ssimF ssim_threshold (toSmall frame) last_small = true
      · rw [if_pos hss]
        cases himw : imwrite (frameFileName frame_idx (pyInt (ratDiv (frame_idx : ℚ) fps))) frame with
        | error e => simp
        | ok u =>
          by_cases hbreak : max_frames ≤
              (saved ++ [(⟨frame_idx, frameFileName frame_idx (pyInt (ratDiv (frame_idx : ℚ) fps)),
                pyInt (ratDiv (frame_idx : ℚ) fps)⟩ : Saved)]).length
          · rw [if_pos hbreak]
            simp
          · rw [if_neg hbreak]
            exact ih _ _ _
      · rw [if_neg hss]
        exact ih _ _ _

theorem extractLoop_ts_nonneg {Frame Sig : Type} (toSmall : Frame → Sig)
    (ssimF : Sig → Sig → Option ℚ) (imwrite : String → Frame → Except String Unit)
    (fps : ℚ) (sample_rate : Nat) (ssim_threshold : ℚ) (max_frames : Nat)
    (hfps : 0 < fps) (frames : List Frame) :
    ∀ (frame_idx : Nat) (saved : List Saved) (last_small : Option Sig) (l : List Saved),
      (∀ s ∈ saved, 0 ≤ s.timestamp) →
      (extractLoop toSmall ssimF imwrite fps sample_rate ssim_threshold max_frames
        frames frame_idx saved last_small).result = Except.ok l →
      ∀ s ∈ l, 0 ≤ s.timestamp := by
  induction frames with
  | nil =>
    intro frame_idx saved last_small l hsaved h
    simp only [extractLoop] at h
    injection h with h
    subst h
    exact hsaved
  | cons frame rest ih =>
    intro frame_idx saved last_small l hsaved h
    simp only [extractLoop] at h
    have hnew : ∀ s ∈ saved ++ [(⟨frame_idx,
        frameFileName frame_idx (pyInt (ratDiv (frame_idx : ℚ) fps)),
        pyInt (ratDiv (frame_idx : ℚ) fps)⟩ : Saved)], 0 ≤ s.timestamp := by
      intro s hs
      rcases List.mem_append.mp hs with hs | hs
      · exact hsaved s hs
      · rcases List.mem_singleton.mp hs with rfl
        exact pyInt_nonneg _ (ratDiv_nonneg _ _ (Nat.cast_nonneg _) hfps)
    by_cases hmod : frame_idx % sample_rate ≠ 0
    · rw [if_pos hmod] at h
      exact ih _ _ _ _ hsaved h
    · rw [if_neg hmod] at h
      by_cases hss : shouldSave ssimF ssim_threshold (toSmall frame) last_small = true
      · rw [if_pos hss] at h
        cases himw : imwrite (frameFileName frame_idx (pyInt (ratDiv (frame_idx : ℚ) fps))) frame with
        | error e =>
          simp only [himw] at h
          exact Except.noConfusion h
        | ok u =>
          simp only [himw] at h
          by_cases hbreak : max_frames ≤
              (saved ++ [(⟨frame_idx, frameFileName frame_idx (pyInt (ratDiv (frame_idx : ℚ) fps)),
                pyInt (ratDiv (frame_idx : ℚ) fps)⟩ : Saved)]).length
          · rw [if_pos hbreak] at h
            injection h with h
            subst h
            exact hnew
          · rw [if_neg hbreak] at h
            exact ih _ _ _ _ hnew h
      · rw [if_neg hss] at h
        exact ih _ _ _ _ hsaved h

theorem extractLoop_sorted_dvd {Frame Sig : Type} (toSmall : Frame → Sig)
    (ssimF : Sig → Sig → Option ℚ) (imwrite : String → Frame → Except String Unit)
    (fps : ℚ) (sample_rate : Nat) (ssim_threshold : ℚ) (max_frames : Nat)
    (frames : List Frame) :
    ∀ (frame_idx : Nat) (saved : List Saved) (last_small : Option Sig) (l : List Saved),
      (∀ s ∈ saved, s.frame_idx < frame_idx) →
      List.Pairwise (fun a b => a.frame_idx < b.frame_idx) saved →
      (∀ s ∈ saved, sample_rate ∣ s.frame_idx) →
      (extractLoop toSmall ssimF imwrite fps sample_rate ssim_threshold max_frames
        frames frame_idx saved last_small).result = Except.ok l →
      List.Pairwise (fun a b => a.frame_idx < b.frame_idx) l ∧
        ∀ s ∈ l, sample_rate ∣ s.frame_idx := by
  induction frames with
  | nil =>
    intro frame_idx saved last_small l hbound hpw hdvd h
    simp only [extractLoop] at h
    injection h with h
    subst h
    exact ⟨hpw, hdvd⟩
  | cons frame rest ih =>
    intro frame_idx saved last_small l hbound hpw hdvd h
    simp only [extractLoop] at h
    have hbound' : ∀ s ∈ saved, s.frame_idx < frame_idx + 1 :=
      fun s hs => Nat.lt_succ_of_lt (hbound s hs)
    by_cases hmod : frame_idx % sample_rate ≠ 0
    · rw [if_pos hmod] at h
      exact ih _ _ _ _ hbound' hpw hdvd h
    · rw [if_neg hmod] at h
      have hdvd0 : sample_rate ∣ frame_idx := Nat.dvd_of_mod_eq_zero (not_not.mp hmod)
      have hb2 : ∀ s ∈ saved ++ [(⟨frame_idx,
          frameFileName frame_idx (pyInt (ratDiv (frame_idx : ℚ) fps)),
          pyInt (ratDiv (frame_idx : ℚ) fps)⟩ : Saved)], s.frame_idx < frame_idx + 1 := by
        intro s hs
        rcases List.mem_append.mp hs with hs | hs
        · exact hbound' s hs
        · rcases List.mem_singleton.mp hs with rfl
          exact Nat.lt_succ_self _
      have hpw2 : List.Pairwise (fun a b => a.frame_idx < b.frame_idx)
          (saved ++ [(⟨frame_idx,
            frameFileName frame_idx (pyInt (ratDiv (frame_idx : ℚ) fps)),
            pyInt (ratDiv (frame_idx : ℚ) fps)⟩ : Saved)]) := by
        rw [List.pairwise_append]
        refine ⟨hpw, List.pairwise_singleton _ _, ?_⟩
        intro a ha b hb
        rcases List.mem_singleton.mp hb with rfl
        exact hbound a ha
      have hdvd2 : ∀ s ∈ saved ++ [(⟨frame_idx,
          frameFileName frame_idx (pyInt (ratDiv (frame_idx : ℚ) fps)),
          pyInt (ratDiv (frame_idx : ℚ) fps)⟩ : Saved)], sample_rate ∣ s.frame_idx := by
        intro s hs
        rcases List.mem_append.mp hs with hs | hs
        · exact hdvd s hs
        · rcases List.mem_singleton.mp hs with rfl
          exact hdvd0
      by_cases hss : shouldSave ssimF ssim_threshold (toSmall frame) last_small = true
      · rw [if_pos hss] at h
        cases himw : imwrite (frameFileName frame_idx (pyInt (ratDiv (frame_idx : ℚ) fps))) frame with
        | error e =>
          simp only [himw] at h
          exact Except.noConfusion h
        | ok u =>
          simp only [himw] at h
          by_cases hbreak : max_frames ≤
              (saved ++ [(⟨frame_idx, frameFileName frame_idx (pyInt (ratDiv (frame_idx : ℚ) fps)),
                pyInt (ratDiv (frame_idx : ℚ) fps)⟩ : Saved)]).length
          · rw [if_pos hbreak] at h
            injection h with h
            subst h
            exact ⟨hpw2, hdvd2⟩
          · rw [if_neg hbreak] at h
            exact ih _ _ _ _ hb2 hpw2 hdvd2 h
      · rw [if_neg hss] at h
        exact ih _ _ _ _ hbound' hpw hdvd h

theorem extractLoop_static {Frame Sig : Type} (toSmall : Frame → Sig)
    (ssimF : Sig → Sig → Option ℚ) (imwrite : String → Frame → Except String Unit)
    (fps : ℚ) (sample_rate : Nat) (ssim_threshold : ℚ) (max_frames : Nat) (f : Frame)
    (hssim : ssimF (toSmall f) (toSmall f) = some 1) (hT : ssim_threshold ≤ 1) :
    ∀ (m frame_idx : Nat) (saved : List Saved),
      extractLoop toSmall ssimF imwrite fps sample_rate ssim_threshold max_frames
        (List.replicate m f) frame_idx saved (some (toSmall f))
      = ⟨Except.ok saved, true⟩ := by
  have hss : shouldSave ssimF ssim_threshold (toSmall f) (some (toSmall f)) = false := by
    show decide ((ssimF (toSmall f) (toSmall f)).getD 0 < ssim_threshold) = false
    rw [hssim]
    simp only [Option.getD_some]
    exact decide_eq_false (not_lt.mpr hT)
  intro m
  induction m with
  | zero =>
    intro frame_idx saved
    simp [List.replicate, extractLoop]
  | succ m ih =>
    intro frame_idx saved
    rw [List.replicate_succ]
    simp only [extractLoop]
    by_cases hmod : frame_idx % sample_rate ≠ 0
    · rw [if_pos hmod]
      exact ih _ _
    · rw [if_neg hmod, hss]
      simp only [Bool.false_eq_true, if_false]
      exact ih _ _

theorem makePage_image (meanOf : String → Nat) (fname : String) (p : Page)
    (h : makePage meanOf fname = Except.ok p) : p.image = fname := by
  unfold makePage at h
  cases hsec : pageSeconds fname with
  | error e =>
    rw [hsec] at h
    exact Except.noConfusion h
  | ok seconds =>
    rw [hsec] at h
    injection h with h
    subst h
    rfl

theorem buildPages_map_image (meanOf : String → Nat) :
    ∀ (fs : List String) (pages : List Page),
      buildPages meanOf fs = Except.ok pages → pages.map Page.image = fs := by
  intro fs
  induction fs with
  | nil =>
    intro pages h
    simp only [buildPages] at h
    injection h with h
    subst h
    rfl
  | cons f rest ih =>
    intro pages h
    simp only [buildPages] at h
    cases hp : makePage meanOf f with
    | error e =>
      rw [hp] at h
      exact Except.noConfusion h
    | ok p =>
      rw [hp] at h
      cases hps : buildPages meanOf rest with
      | error e =>
        rw [hps] at h
        exact Except.noConfusion h
      | ok ps =>
        rw [hps] at h
        injection h with h
        subst h
        simp only [List.map_cons]
        rw [makePage_image meanOf f p hp, ih ps hps]

/-- Claim C1: the claim says "mean luminance < 64 → white label, otherwise
black".  Evaluating the assembler shows that for corner mean 10 the text color
is white `(255,255,255)`, but for corner mean 200 it is `(255,255,0)` (yellow),
not black: in `set_text_color(255,255,255 if mean<64 else 0)` the conditional
is only the blue argument. -/
theorem spec_C1 :
    convert_frames_to_pdf (fun _ => 200) ["frame_000000_10s.png"]
      = Except.ok [{ image := "frame_000000_10s.png", label := "00:00:00",
                     textColor := (255, 255, 0) }] ∧
    convert_frames_to_pdf (fun _ => 10) ["frame_000000_10s.png"]
      = Except.ok [{ image := "frame_000000_10s.png", label := "00:00:00",
                     textColor := (255, 255, 255) }] ∧
    ((255, 255, 0) : Nat × Nat × Nat) ≠ (0, 0, 0) :=
  ⟨rfl, rfl, by decide⟩

/-- Claim C2: the sampler encodes 3725 seconds as `frame_000000_3725s.png`,
but the assembler's regex (raw string `r"_(\\d+)s"`, which matches a literal
backslash followed by letters `d`) finds no match there, so the page label is
`00:00:00`, not the claimed `01:02:05`. -/
theorem spec_C2 :
    frameFileName 0 3725 = "frame_000000_3725s.png" ∧
    tsSearch (frameFileName 0 3725).data = none ∧
    convert_frames_to_pdf (fun _ => 200) [frameFileName 0 3725]
      = Except.ok [{ image := "frame_000000_3725s.png", label := "00:00:00",
                     textColor := (255, 255, 0) }] ∧
    ("00:00:00" : String) ≠ "01:02:05" :=
  ⟨rfl, rfl, rfl, by decide⟩

/-- Claim C3: a perfectly static video (`n` identical frames, `n ≥ stride`)
yields exactly one retained frame, given that the similarity of a signature
with itself is 1 (the SSIM of identical images) and the threshold is ≤ 1. -/
theorem spec_C3 {Frame Sig : Type} (toSmall : Frame → Sig) (ssimF : Sig → Sig → Option ℚ)
    (imwrite : String → Frame → Except String Unit) (reportedFps : ℚ) (f : Frame)
    (n sample_rate max_frames : Nat) (ssim_threshold : ℚ)
    (hS : 0 < sample_rate) (hn : sample_rate ≤ n) (hT : ssim_threshold ≤ 1)
    (hM : 1 ≤ max_frames)
    (hssim : ssimF (toSmall f) (toSmall f) = some 1)
    (himw : ∀ name fr, imwrite name fr = Except.ok ()) :
    ∃ s, (extract_unique_frames toSmall ssimF imwrite true reportedFps
      (List.replicate n f) sample_rate ssim_threshold max_frames).result
      = Except.ok [s] := by
  obtain ⟨k, rfl⟩ : ∃ k, n = k + 1 := ⟨n - 1, by omega⟩
  unfold extract_unique_frames
  rw [if_pos rfl, List.replicate_succ]
  simp only [extractLoop]
  rw [if_neg (by simp)]
  rw [if_pos (show shouldSave ssimF ssim_threshold (toSmall f) none = true from rfl)]
  simp only [himw]
  simp only [List.nil_append, List.length_singleton]
  by_cases hb : max_frames ≤ 1
  · rw [if_pos hb]
    exact ⟨_, rfl⟩
  · rw [if_neg hb]
    rw [extractLoop_static toSmall ssimF imwrite (effectiveFps reportedFps)
      sample_rate ssim_threshold max_frames f hssim hT k 1 _]
    exact ⟨_, rfl⟩

/-- Witness for C3. -/
theorem spec_C3_witness :
    ∃ s, (extract_unique_frames (fun n : Nat => n) (fun _ _ => some 1)
      (fun _ _ => Except.ok ()) true 25 (List.replicate 6 0) 3 (mkRat 4 5) 50).result
      = Except.ok [s] :=
  spec_C3 (fun n : Nat => n) (fun _ _ => some 1) (fun _ _ => Except.ok ()) 25 0 6 3 50
    (mkRat 4 5) (by decide) (by decide) (by decide) (by decide) rfl (fun _ _ => rfl)

/-- Claim C4: whenever the sampler returns normally on a stream with at least
one decodable frame (positive stride, threshold in (0,1], positive budget),
the returned list has between 1 and `max_frames` entries. -/
theorem spec_C4 {Frame Sig : Type} (toSmall : Frame → Sig) (ssimF : Sig → Sig → Option ℚ)
    (imwrite : String → Frame → Except String Unit) (isOpened : Bool) (reportedFps : ℚ)
    (frames : List Frame) (sample_rate : Nat) (ssim_threshold : ℚ) (max_frames : Nat)
    (l : List Saved) (hne : frames ≠ []) (hS : 0 < sample_rate)
    (hT0 : 0 < ssim_threshold) (hT1 : ssim_threshold ≤ 1) (hM : 0 < max_frames)
    (h : (extract_unique_frames toSmall ssimF imwrite isOpened reportedFps frames
      sample_rate ssim_threshold max_frames).result = Except.ok l) :
    1 ≤ l.length ∧ l.length ≤ max_frames := by
  cases isOpened with
  | false =>
    unfold extract_unique_frames at h
    rw [if_neg (by simp)] at h
    exact Except.noConfusion h
  | true =>
    obtain ⟨f, rest, rfl⟩ := List.exists_cons_of_ne_nil hne
    unfold extract_unique_frames at h
    rw [if_pos rfl] at h
    simp only [extractLoop] at h
    rw [if_neg (by simp)] at h
    rw [if_pos (show shouldSave ssimF ssim_threshold (toSmall f) none = true from rfl)] at h
    cases himw : imwrite (frameFileName 0
        (pyInt (ratDiv ((0 : Nat) : ℚ) (effectiveFps reportedFps)))) f with
    | error e =>
      simp only [himw] at h
      exact Except.noConfusion h
    | ok u =>
      simp only [himw] at h
      simp only [List.nil_append, List.length_singleton] at h
      by_cases hb : max_frames ≤ 1
      · rw [if_pos hb] at h
        injection h with h
        subst h
        simp only [List.length_singleton]
        exact ⟨Nat.le_refl 1, hM⟩
      · rw [if_neg hb] at h
        constructor
        · have h1 := extractLoop_length_le toSmall ssimF imwrite (effectiveFps reportedFps)
            sample_rate ssim_threshold max_frames rest 1 _ _ l h
          simpa using h1
        · exact extractLoop_length_le_max toSmall ssimF imwrite (effectiveFps reportedFps)
            sample_rate ssim_threshold max_frames rest 1 _ _ l (by simp; omega) h

/-- Witness for C4. -/
theorem spec_C4_witness :
    1 ≤ [Saved.mk 0 "frame_000000_0s.png" 0].length ∧
    [Saved.mk 0 "frame_000000_0s.png" 0].length ≤ 50 :=
  spec_C4 (fun n : Nat => n) (fun _ _ => some 1) (fun _ _ => Except.ok ()) true 25 [0, 1] 3
    (mkRat 4 5) 50 [Saved.mk 0 "frame_000000_0s.png" 0] (by decide) (by decide) (by decide)
    (by decide) (by decide) rfl

/-- Claim C5: in any normal sampler run with positive stride, the retained
frame indices are strictly increasing in retention order and each is an exact
multiple of the stride. -/
theorem spec_C5 {Frame Sig : Type} (toSmall : Frame → Sig) (ssimF : Sig → Sig → Option ℚ)
    (imwrite : String → Frame → Except String Unit) (isOpened : Bool) (reportedFps : ℚ)
    (frames : List Frame) (sample_rate : Nat) (ssim_threshold : ℚ) (max_frames : Nat)
    (l : List Saved) (hS : 0 < sample_rate)
    (h : (extract_unique_frames toSmall ssimF imwrite isOpened reportedFps frames
      sample_rate ssim_threshold max_frames).result = Except.ok l) :
    List.Pairwise (fun a b => a.frame_idx < b.frame_idx) l ∧
      ∀ s ∈ l, sample_rate ∣ s.frame_idx := by
  cases isOpened with
  | false =>
    unfold extract_unique_frames at h
    rw [if_neg (by simp)] at h
    exact Except.noConfusion h
  | true =>
    unfold extract_unique_frames at h
    rw [if_pos rfl] at h
    exact extractLoop_sorted_dvd toSmall ssimF imwrite (effectiveFps reportedFps)
      sample_rate ssim_threshold max_frames frames 0 [] none l
      (by simp) (by simp) (by simp) h

/-- Witness for C5. -/
theorem spec_C5_witness :
    List.Pairwise (fun a b => a.frame_idx < b.frame_idx)
      [Saved.mk 0 "frame_000000_0s.png" 0] ∧
    ∀ s ∈ [Saved.mk 0 "frame_000000_0s.png" 0], 3 ∣ s.frame_idx :=
  spec_C5 (fun n : Nat => n) (fun _ _ => some 1) (fun _ _ => Except.ok ()) true 25 [0, 1] 3
    (mkRat 4 5) 50 [Saved.mk 0 "frame_000000_0s.png" 0] (by decide) rfl

/-- Claim C6 counterexample: with a fixed stream, stride 1 and budget 10, the
similarity oracle `cexSsim` produces 4 retained frames at threshold 3/5 but
only 3 at the larger threshold 19/20, so raising the threshold CAN decrease
the number of retained frames (the comparison state differs between runs). -/
theorem spec_C6_counterexample :
    mkRat 3 5 ≤ mkRat 19 20 ∧
    savedCount (extract_unique_frames (fun n : Nat => n) cexSsim (fun _ _ => Except.ok ())
      true 25 [0, 1, 2, 3, 4] 1 (mkRat 3 5) 10) = 4 ∧
    savedCount (extract_unique_frames (fun n : Nat => n) cexSsim (fun _ _ => Except.ok ())
      true 25 [0, 1, 2, 3, 4] 1 (mkRat 19 20) 10) = 3 :=
  ⟨by decide, rfl, rfl⟩

/-- Claim C6 (amended): the retention test itself is monotone in the
threshold: a candidate retained against a given comparison state at threshold
`T1` is also retained at any threshold `T2 ≥ T1`.  (The end-to-end FrameSet
size is not monotone, see the counterexample.) -/
theorem spec_C6_amended {Sig : Type} (ssimF : Sig → Sig → Option ℚ) (small : Sig)
    (last_small : Option Sig) (T1 T2 : ℚ) (h12 : T1 ≤ T2)
    (h : shouldSave ssimF T1 small last_small = true) :
    shouldSave ssimF T2 small last_small = true := by
  cases last_small with
  | none => rfl
  | some last =>
    have h' : (ssimF small last).getD 0 < T1 := by
      have := h
      simp only [shouldSave, decide_eq_true_eq] at this
      exact this
    simp only [shouldSave, decide_eq_true_eq]
    exact lt_of_lt_of_le h' h12

/-- Witness for the amended C6. -/
theorem spec_C6_amended_witness :
    shouldSave (fun _ _ : Nat => some (mkRat 1 2)) (mkRat 19 20) 0 (some 0) = true :=
  spec_C6_amended (fun _ _ : Nat => some (mkRat 1 2)) 0 (some 0) (mkRat 3 5) (mkRat 19 20)
    (by decide) (by decide)

/-- Claim C7 counterexample: for the non-positive reported rate `-1` the
sampler does NOT substitute 25.0 (Python `or` only replaces the falsy 0.0):
the effective fps stays `-1` and the run derives the negative timestamp `-1`
for frame index 1. -/
theorem spec_C7_counterexample :
    ((-1 : ℚ) ≤ 0) ∧ effectiveFps (-1) ≠ 25 ∧
    (extract_unique_frames (fun n : Nat => n) (fun _ _ => some 0) (fun _ _ => Except.ok ())
      true (-1) [0, 1] 1 1 10).result
      = Except.ok [Saved.mk 0 "frame_000000_0s.png" 0, Saved.mk 1 "frame_000001_-1s.png" (-1)] :=
  ⟨by decide, by decide, rfl⟩

/-- Claim C7 (amended): the fallback 25.0 applies exactly when the reported
rate is 0.0 (unavailable); the effective rate is never 0, so the timestamp
computation never divides by zero; and for a nonnegative reported rate every
derived timestamp of a normal run is a nonnegative integer. -/
theorem spec_C7_amended {Frame Sig : Type} (toSmall : Frame → Sig)
    (ssimF : Sig → Sig → Option ℚ) (imwrite : String → Frame → Except String Unit)
    (isOpened : Bool) (reportedFps : ℚ) (frames : List Frame)
    (sample_rate : Nat) (ssim_threshold : ℚ) (max_frames : Nat) (l : List Saved)
    (hr : 0 ≤ reportedFps)
    (h : (extract_unique_frames toSmall ssimF imwrite isOpened reportedFps frames
      sample_rate ssim_threshold max_frames).result = Except.ok l) :
    effectiveFps reportedFps ≠ 0 ∧ (reportedFps = 0 → effectiveFps reportedFps = 25) ∧
      ∀ s ∈ l, 0 ≤ s.timestamp := by
  have hpos : 0 < effectiveFps reportedFps := by
    unfold effectiveFps
    by_cases h0 : reportedFps = 0
    · rw [if_pos h0]
      norm_num
    · rw [if_neg h0]
      exact lt_of_le_of_ne hr (Ne.symm h0)
  refine ⟨ne_of_gt hpos, fun h0 => by simp [effectiveFps, h0], ?_⟩
  cases isOpened with
  | false =>
    unfold extract_unique_frames at h
    rw [if_neg (by simp)] at h
    exact Except.noConfusion h
  | true =>
    unfold extract_unique_frames at h
    rw [if_pos rfl] at h
    exact extractLoop_ts_nonneg toSmall ssimF imwrite (effectiveFps reportedFps)
      sample_rate ssim_threshold max_frames hpos frames 0 [] none l (by simp) h

/-- Witness for the amended C7. -/
theorem spec_C7_amended_witness :
    effectiveFps 25 ≠ 0 ∧ ((25 : ℚ) = 0 → effectiveFps 25 = 25) ∧
      ∀ s ∈ [Saved.mk 0 "frame_000000_0s.png" 0], 0 ≤ s.timestamp :=
  spec_C7_amended (fun n : Nat => n) (fun _ _ => some 1) (fun _ _ => Except.ok ()) true 25
    [0] 1 1 10 [Saved.mk 0 "frame_000000_0s.png" 0] (by decide) rfl

/-- Claim C8 counterexample: an error raised inside the frame loop (here a
failing frame write) propagates WITHOUT the stream handle being released:
there is no `try/finally` around the loop, and `cap.release()` is only reached
on normal loop exit. -/
theorem spec_C8_counterexample :
    extract_unique_frames (fun n : Nat => n) (fun _ _ => some 0)
      (fun _ _ => Except.error "imwrite failed") true 25 [0] 1 1 10
      = ⟨Except.error "imwrite failed", false⟩ :=
  rfl

/-- Claim C8 (amended): after a successful open, the stream handle is released
exactly when the sampler returns normally (stream exhaustion or early stop at
the frame budget); on an error propagated from inside the loop it is not
released. -/
theorem spec_C8_amended {Frame Sig : Type} (toSmall : Frame → Sig)
    (ssimF : Sig → Sig → Option ℚ) (imwrite : String → Frame → Except String Unit)
    (isOpened : Bool) (reportedFps : ℚ) (frames : List Frame)
    (sample_rate : Nat) (ssim_threshold : ℚ) (max_frames : Nat)
    (hopen : isOpened = true) :
    ((extract_unique_frames toSmall ssimF imwrite isOpened reportedFps frames
      sample_rate ssim_threshold max_frames).released = true ↔
    ∃ l, (extract_unique_frames toSmall ssimF imwrite isOpened reportedFps frames
      sample_rate ssim_threshold max_frames).result = Except.ok l) := by
  subst hopen
  unfold extract_unique_frames
  rw [if_pos rfl]
  exact extractLoop_released_iff toSmall ssimF imwrite (effectiveFps reportedFps)
    sample_rate ssim_threshold max_frames frames 0 [] none

/-- Witness for the amended C8. -/
theorem spec_C8_amended_witness :
    ((extract_unique_frames (fun n : Nat => n) (fun _ _ => some 1) (fun _ _ => Except.ok ())
      true 25 [0] 1 1 10).released = true ↔
    ∃ l, (extract_unique_frames (fun n : Nat => n) (fun _ _ => some 1) (fun _ _ => Except.ok ())
      true 25 [0] 1 1 10).result = Except.ok l) :=
  spec_C8_amended (fun n : Nat => n) (fun _ _ => some 1) (fun _ _ => Except.ok ()) true 25
    [0] 1 1 10 rfl

/-- Claim C9: on a directory listing with no frame image files the assembler
raises `No frames found.` and produces no document; on a normal run the pages
are exactly the frame files in lexical-sort order (one page per file, in
order). -/
theorem spec_C9 (meanOf : String → Nat) (listing : List String) :
    (sortedFrameFiles listing = [] →
      convert_frames_to_pdf meanOf listing = Except.error "No frames found.") ∧
    ∀ pages, convert_frames_to_pdf meanOf listing = Except.ok pages →
      pages.map Page.image = sortedFrameFiles listing := by
  constructor
  · intro hempty
    simp only [convert_frames_to_pdf, hempty]
    rfl
  · intro pages h
    simp only [convert_frames_to_pdf] at h
    by_cases hempty : (sortedFrameFiles listing).isEmpty
    · rw [if_pos hempty] at h
      exact Except.noConfusion h
    · rw [if_neg hempty] at h
      exact buildPages_map_image meanOf _ pages h

/-- Witness for C9: an empty listing raises, and a two-file listing (one name
needing lowercasing to pass the extension filter) yields pages in lexical
order. -/
theorem spec_C9_witness :
    convert_frames_to_pdf (fun _ => 200) [] = Except.error "No frames found." ∧
    ([{ image := "a.PNG", label := "00:00:00", textColor := (255, 255, 0) },
      { image := "b.png", label := "00:00:00", textColor := (255, 255, 0) }] :
      List Page).map Page.image = sortedFrameFiles ["b.png", "notes.txt", "a.PNG"] :=
  ⟨(spec_C9 (fun _ => 200) []).1 rfl,
   (spec_C9 (fun _ => 200) ["b.png", "notes.txt", "a.PNG"]).2 _ rfl⟩

/-- Claim C10: when the assembler's timestamp regex finds no match in a frame
file's name, the page is still produced (no failure), the seconds default to
0, and the label is `00:00:00`. -/
theorem spec_C10 (meanOf : String → Nat) (fname : String)
    (h : tsSearch fname.data = none) :
    makePage meanOf fname
      = Except.ok { image := fname, label := "00:00:00",
                    textColor := (255, 255, if meanOf fname < 64 then 255 else 0) } := by
  unfold makePage pageSeconds
  rw [h]
  rfl

/-- Witness for C10. -/
theorem spec_C10_witness :
    makePage (fun _ => 100) "image001.png"
      = Except.ok { image := "image001.png", label := "00:00:00",
                    textColor := (255, 255, 0) } :=
  spec_C10 (fun _ => 100) "image001.png" rfl

end VideoToPdf
